import Mathlib

/-!
Shallow embedding of the transport / session-coordination layer of the
`retrozoid/control` Chrome DevTools Protocol client.

The embedding follows the Go source:
  * `src/cdp/promise.go` — one-shot promise/future (`promise[T]` with
    `sync.Once` settle), `Transport` (`Send`, `read`, `gracefullyClose`,
    `Subscribe`);
  * `src/cdp/broker.go` — single-loop subscriber registry (`broker.run`)
    with non-blocking fan-out (`select`/`default`) and unconditional
    close-on-unsubscribe;
  * `src/session.go` — `Session.handle` (terminal target-lifecycle
    events) and `Session.Call`.

Go maps are modelled as association lists (insert = cons, so lookup sees
the newest binding first, delete = filter), channels as queues with an
explicit capacity, goroutine interleavings as explicit operation traces,
and the `context` cancellation scopes as an `Option Err` cause that is
set at most once.  Ghost fields (`sentIDs`, `written`, `closes`,
`published`, `cleanRuns`) record the observable effects — ids stamped on
requests, frames written to the connection, `close(ch)` calls, messages
handed to the broker, runs of a promise's release hook — that the claims
talk about.
-/

namespace Control

/-- Event payloads.  Each constructor stands for one decoded event shape
together with its method name (`mustUnmarshal` in `src/session.go`
decodes `Message.Params` according to `Message.Method`; the constructor
fixes both at once, so the model ranges over well-formed events).
`other` covers every method the session's switch ignores. -/
inductive Params where
  | executionContextCreated (frameId : String) (uniqueId : String)
  | frameDetached (frameId : String)
  | detachedFromTarget (sessionId : String)
  | targetDestroyed (targetId : String)
  | targetCrashed (targetId : String)
  | other (method : String) (payload : String)
deriving DecidableEq, Repr

/-- An event (`Message` in the Go source): an uncorrelated inbound frame
carrying a session id and a payload, fanned out by the broker. -/
structure Message where
  sessionID : String
  params : Params
deriving DecidableEq, Repr

/-- Errors observable through promises and contexts.  Constructors mirror
the error values of the source: `ErrPromiseCanceled`, remote protocol
errors (`Response.Error`), connection write/read failures, the
`"unexpected response"` error of `Transport.read`, `ErrTargetDetached`,
`ErrTargetDestroyed`, and `TargetCrashedError(message.Params)`. -/
inductive Err where
  | promiseCanceled
  | remote (code : Int) (msg : String)
  | write (msg : String)
  | readConn (msg : String)
  | unexpectedResponse (id : Nat)
  | targetDetached
  | targetDestroyed
  | targetCrashed (params : Params)
  | other (msg : String)
deriving DecidableEq, Repr

/-- An inbound frame (`Response` in the Go source): either a correlated
response (`id` with `result` or `error`) or, when `id` is zero, possibly
an embedded event `message`. -/
structure Response where
  id : Nat
  result : String
  error : Option Err
  message : Option Message
deriving DecidableEq, Repr

/-- An outbound frame (`Request` in the Go source).  `Transport.Send`
overwrites `id` with the next sequence id before writing. -/
structure Request where
  id : Nat
  sessionID : String
  method : String
  params : String
deriving DecidableEq, Repr

/-! ### Promise / Future (`src/cdp/promise.go`)

A `promise[T]` is a `sync.Once`-guarded one-shot cell: `Resolve` stores
the value, `Reject` stores the error, each closes the `fulfilled`
channel and runs the release hook; the `Once` makes every later
settlement a no-op.  `Cancel` is `Reject(ErrPromiseCanceled)`.
`settled` models "the `Once` has fired / `fulfilled` is closed",
`value`/`err` model the `u.value`/`u.err` fields (`none` = Go zero
value / nil error), and the ghost counter `cleanRuns` counts executions
of the release hook (`clean` / `onClose`). -/

structure PromiseState (T : Type) where
  settled : Bool
  value : Option T
  err : Option Err
  cleanRuns : Nat
deriving DecidableEq, Repr

/-- A freshly created promise: pending, zero value, nil error, hook not
yet run (`NewPromise` / `MakePromise`). -/
def initPromise (T : Type) : PromiseState T :=
  { settled := false, value := none, err := none, cleanRuns := 0 }

/-- `Resolve`: inside `once.Do`, store the value, close `fulfilled`, run
the hook.  A no-op when already settled. -/
def PromiseState.doResolve (p : PromiseState T) (v : T) : PromiseState T :=
  if p.settled then p
  else { settled := true, value := some v, err := p.err, cleanRuns := p.cleanRuns + 1 }

/-- `Reject`: inside `once.Do`, store the error (a Go `error`, possibly
nil — hence `Option`), close `fulfilled`, run the hook.  A no-op when
already settled. -/
def PromiseState.doReject (p : PromiseState T) (e : Option Err) : PromiseState T :=
  if p.settled then p
  else { settled := true, value := p.value, err := e, cleanRuns := p.cleanRuns + 1 }

/-- The pair `(u.value, u.err)` that `Get` returns once `fulfilled` is
closed. -/
def promiseGet (p : PromiseState T) : Option T × Option Err :=
  (p.value, p.err)

/-- One settlement call made against a promise: `Resolve(v)`,
`Reject(e)` or `Cancel()` (the latter is `Reject(ErrPromiseCanceled)` in
the source). -/
inductive PromiseOp (T : Type) where
  | resolve (v : T)
  | reject (e : Option Err)
  | cancel
deriving DecidableEq, Repr

/-- Apply one settlement call. -/
def PromiseState.applyOp (p : PromiseState T) : PromiseOp T → PromiseState T
  | .resolve v => p.doResolve v
  | .reject e => p.doReject e
  | .cancel => p.doReject (some .promiseCanceled)

/-- Run a sequence of settlement calls against a fresh promise. -/
def runPromiseOps (T : Type) (ops : List (PromiseOp T)) : PromiseState T :=
  ops.foldl PromiseState.applyOp (initPromise T)

/-! ### Broker (`src/cdp/broker.go`)

`broker.run` is a single control loop owning the registry
`map[chan Message]string` (mailbox channel ↦ registered session id).
Channels are modelled as numeric handles carrying a bounded queue; the
registry is the list `subs` (each `Mailbox` bundles the channel handle,
its registered session id, its capacity and its current queue).  The
ghost list `closes` records every `close(ch)` executed by the loop, in
order — in Go, closing a channel that already occurs in this log
panics. -/

/-- Default mailbox capacity (`var BrokerChannelSize = 10`). -/
def brokerChannelSize : Nat := 10

/-- One registered subscriber: the mailbox channel (as a handle), the
session id it registered for (`""` = receive everything), the channel's
buffer capacity and its current buffered messages. -/
structure Mailbox where
  chanId : Nat
  sessionID : String
  capacity : Nat
  queue : List Message
deriving DecidableEq, Repr

/-- Broker loop state: the registry, a fresh-handle counter, the ghost
log of `close` calls and whether `Cancel` has been processed. -/
structure BrokerState where
  subs : List Mailbox
  nextChan : Nat
  closes : List Nat
  canceled : Bool
deriving DecidableEq, Repr

/-- The broker as `makeBroker` + `go broker.run()` leave it: empty
registry, nothing closed. -/
def brokerInit : BrokerState :=
  { subs := [], nextChan := 0, closes := [], canceled := false }

/-- The `sub` case of the loop (fed by `broker.Subscribe`, which
allocates `make(chan Message, BrokerChannelSize)`): register a fresh
mailbox for `sid`.  Returns the new channel handle. -/
def BrokerState.subscribeStep (b : BrokerState) (sid : String) : Nat × BrokerState :=
  (b.nextChan,
   { b with
      subs := b.subs ++ [{ chanId := b.nextChan, sessionID := sid,
                           capacity := brokerChannelSize, queue := [] }],
      nextChan := b.nextChan + 1 })

/-- The `unsub` case of the loop: `delete(value, channel); close(channel)`
— the deletion and the `close` are unconditional, with no membership
check on the registry. -/
def BrokerState.unsubStep (b : BrokerState) (ch : Nat) : BrokerState :=
  { b with
      subs := b.subs.filter (fun mb => mb.chanId != ch),
      closes := b.closes ++ [ch] }

/-- Eligibility test of the `publish` case:
`message.SessionID == "" || channelID == "" || message.SessionID == channelID`. -/
def eligible (msg : Message) (channelID : String) : Bool :=
  msg.sessionID == "" || channelID == "" || msg.sessionID == channelID

/-- The non-blocking send `select { case msgCh <- message: default: }`:
append when the buffer has room, silently drop otherwise. -/
def Mailbox.offer (mb : Mailbox) (msg : Message) : Mailbox :=
  if mb.queue.length < mb.capacity then { mb with queue := mb.queue ++ [msg] } else mb

/-- The `publish` case of the loop: offer the message to every eligible
mailbox, non-blockingly. -/
def BrokerState.publishStep (b : BrokerState) (msg : Message) : BrokerState :=
  { b with
      subs := b.subs.map (fun mb => if eligible msg mb.sessionID then mb.offer msg else mb) }

/-- The `cancel` case of the loop: close every registered mailbox and
return. -/
def BrokerState.cancelStep (b : BrokerState) : BrokerState :=
  { b with
      closes := b.closes ++ b.subs.map Mailbox.chanId,
      canceled := true }

/-! ### Transport (`src/cdp/promise.go`, `Transport` part)

The pending-request map `map[uint64]responsePromise` is an association
list `pending : List (Nat × Nat)` from sequence id to an index into the
promise store `promises` (each `Transport.Send` allocates one fresh
promise; the store gives promises stable identities so that "settles
exactly that request's future" is expressible).  `cause` models
`context.Cause(t.context)` of the `WithCancelCause` scope — `none`
while live, set at most once.  Ghost fields: `sentIDs` records the ids
stamped onto outbound requests (`request.ID = seq`), `written` the
frames handed to `conn.WriteJSON`, `published` the events handed to
`broker.Publish`. -/

/-- `delete(m, k)` on the association-list model of a Go map. -/
def eraseKey (m : List (Nat × Nat)) (k : Nat) : List (Nat × Nat) :=
  m.filter (fun kv => kv.1 != k)

structure TransportState where
  seq : Nat
  pending : List (Nat × Nat)
  promises : List (PromiseState Response)
  cause : Option Err
  broker : BrokerState
  sentIDs : List Nat
  written : List Request
  published : List Message
  readerDone : Bool
deriving DecidableEq, Repr

/-- The transport as `Dial` leaves it: `seq: 1`, empty pending map, a
fresh broker, live cancellation scope. -/
def Transport.init : TransportState :=
  { seq := 1, pending := [], promises := [], cause := none, broker := brokerInit,
    sentIDs := [], written := [], published := [], readerDone := false }

/-- `t.isClosed()`: whether `t.context.Done()` is closed — for a
`WithCancelCause` scope, whether a cause has been recorded. -/
def TransportState.isClosed (t : TransportState) : Bool :=
  t.cause.isSome

/-- `t.cancel(e)` of the `WithCancelCause` scope: records `e` as the
cause unless one is already recorded. -/
def TransportState.cancelWith (t : TransportState) (e : Err) : TransportState :=
  if t.cause.isSome then t else { t with cause := some e }

/-- Settle the promise at store index `p` by `Reject(e)`.  (`List.set`
keeps every other index unchanged.) -/
def TransportState.rejectAt (t : TransportState) (p : Nat) (e : Option Err) : TransportState :=
  { t with promises := t.promises.set p ((t.promises.getD p (initPromise Response)).doReject e) }

/-- Settle the promise at store index `p` by `Resolve(r)`. -/
def TransportState.resolveAt (t : TransportState) (p : Nat) (r : Response) : TransportState :=
  { t with promises := t.promises.set p ((t.promises.getD p (initPromise Response)).doResolve r) }

/-- `Transport.Send`: create a promise/future pair; if the transport is
closed, reject it with the recorded cause and return it; otherwise
stamp the next sequence id onto the request, register the promise in
the pending map, bump `seq`, write the frame, and on a write error
remove the pending entry again and reject the future with that error.
`writeErr` is the outcome `conn.WriteJSON(request)` returns.  The
returned `Nat` is the future (its promise-store index). -/
def Transport.send (t : TransportState) (req : Request) (writeErr : Option Err) :
    TransportState × Nat :=
  let p := t.promises.length
  let t0 := { t with promises := t.promises ++ [initPromise Response] }
  if t0.isClosed then
    (t0.rejectAt p t0.cause, p)
  else
    let sid := t0.seq
    let t1 := { t0 with
                  seq := sid + 1,
                  pending := (sid, p) :: t0.pending,
                  sentIDs := t0.sentIDs ++ [sid],
                  written := t0.written ++ [{ req with id := sid }] }
    match writeErr with
    | none => (t1, p)
    | some e => ({ t1 with pending := eraseKey t1.pending sid }.rejectAt p (some e), p)

/-- The correlation branch of `Transport.read`: look the id up in the
pending map and delete it; an id matching nothing pending is the fatal
`"unexpected response"` read error; otherwise the pending promise is
rejected with the frame's error or resolved with the frame. -/
def Transport.correlate (t : TransportState) (r : Response) : TransportState × Option Err :=
  let t1 := { t with pending := eraseKey t.pending r.id }
  match List.lookup r.id t.pending with
  | none => (t1, some (.unexpectedResponse r.id))
  | some p =>
      match r.error with
      | some e => (t1.rejectAt p (some e), none)
      | none => (t1.resolveAt p r, none)

/-- What the reader observes on one `conn.ReadJSON`: a connection error
or a decoded frame. -/
inductive ReadInput where
  | connErr (e : Err)
  | frame (r : Response)
deriving DecidableEq, Repr

/-- One iteration of `Transport.read`: a connection error is returned;
a frame with id 0 and an embedded message is published to the broker;
everything else is correlated against the pending map. -/
def Transport.readStep (t : TransportState) (i : ReadInput) : TransportState × Option Err :=
  match i with
  | .connErr e => (t, some e)
  | .frame r =>
      if r.id = 0 then
        match r.message with
        | some m =>
            ({ t with broker := t.broker.publishStep m, published := t.published ++ [m] }, none)
        | none => Transport.correlate t r
      else Transport.correlate t r

/-- `Reject(e)` every promise in `idxs`, left to right (the
`for key, value := range t.pending` loop of `gracefullyClose`). -/
def rejectAllAt (ps : List (PromiseState Response)) (idxs : List Nat) (e : Option Err) :
    List (PromiseState Response) :=
  idxs.foldl (fun acc i => acc.set i ((acc.getD i (initPromise Response)).doReject e)) ps

/-- `Transport.gracefullyClose`: cancel the broker, reject every pending
promise with `t.error()` (the recorded cause) and empty the map. -/
def Transport.gracefullyClose (t : TransportState) : TransportState :=
  { t with
      broker := t.broker.cancelStep,
      promises := rejectAllAt t.promises (t.pending.map Prod.snd) t.cause,
      pending := [] }

/-- What the reader goroutine of `Dial` does once `Transport.read`
returns an error: `t.cancel(readerr)` then `t.gracefullyClose()`, and
the loop exits. -/
def Transport.onReadError (t : TransportState) (e : Err) : TransportState :=
  { Transport.gracefullyClose (t.cancelWith e) with readerDone := true }

/-- `Transport.Subscribe`: `nil, nil` when the transport is closed (no
subscription is registered); otherwise register a broker mailbox and
return its channel (the unsubscribe closure is `broker.Unsubscribe` on
that channel, i.e. `BrokerState.unsubStep`).  `none` models the
`nil, nil` return. -/
def Transport.subscribe (t : TransportState) (sid : String) : Option Nat × TransportState :=
  if t.isClosed then (none, t)
  else
    let (ch, b) := t.broker.subscribeStep sid
    (some ch, { t with broker := b })

/-- One step of an interleaved trace against a transport: a caller's
`Send` (with the write outcome the connection will produce) or one
reader-loop iteration (ignored once the reader has exited). -/
inductive TOp where
  | send (req : Request) (writeErr : Option Err)
  | read (i : ReadInput)
deriving DecidableEq, Repr

def Transport.step (t : TransportState) (op : TOp) : TransportState :=
  match op with
  | .send req we => (Transport.send t req we).1
  | .read i =>
      if t.readerDone then t
      else
        match Transport.readStep t i with
        | (t1, none) => t1
        | (t1, some e) => Transport.onReadError t1 e

/-- Run a trace of sends and reader iterations. -/
def Transport.run (t : TransportState) (ops : List TOp) : TransportState :=
  ops.foldl Transport.step t

/-! ### Session (`src/session.go`)

`cause` models `context.Cause(s.context)` of the session's own
`WithCancelCause` scope (`none` while live).  `frames` models the
`sync.Map` from frame id to execution-context unique id (insert = cons,
so lookups see the newest binding). -/

structure SessState where
  sessionID : String
  targetID : String
  frames : List (String × String)
  cause : Option Err
deriving DecidableEq, Repr

/-- Outcome of one iteration of `Session.handle`'s event loop: keep
processing with an updated session, or return the terminal error. -/
inductive HandleStep where
  | cont (s : SessState)
  | terminate (e : Err)
deriving DecidableEq, Repr

/-- The `switch message.Method` body of `Session.handle`:
`Runtime.executionContextCreated` stores the frame's context id,
`Page.frameDetached` deletes the frame, `Target.detachedFromTarget`
with this session's id, `Target.targetDestroyed` with this target's id
and `Target.targetCrashed` with this target's id return the
corresponding terminal errors (`ErrTargetDetached`,
`ErrTargetDestroyed`, `TargetCrashedError(message.Params)`); every
other event falls through. -/
def Session.handleMsg (s : SessState) (m : Message) : HandleStep :=
  match m.params with
  | .executionContextCreated frameId uniqueId =>
      .cont { s with frames := (frameId, uniqueId) :: s.frames }
  | .frameDetached frameId =>
      .cont { s with frames := s.frames.filter (fun kv => kv.1 != frameId) }
  | .detachedFromTarget sessionId =>
      if s.sessionID = sessionId then .terminate .targetDetached else .cont s
  | .targetDestroyed targetId =>
      if s.targetID = targetId then .terminate .targetDestroyed else .cont s
  | .targetCrashed targetId =>
      if s.targetID = targetId then .terminate (.targetCrashed (.targetCrashed targetId))
      else .cont s
  | .other _ _ => .cont s

/-- `Session.handle`: `for message := range channel`, returning the
first terminal error, or `nil` once the mailbox is exhausted. -/
def Session.handle (s : SessState) (msgs : List Message) : SessState × Option Err :=
  match msgs with
  | [] => (s, none)
  | m :: rest =>
      match Session.handleMsg s m with
      | .cont s1 => Session.handle s1 rest
      | .terminate e => (s, some e)

/-- The event-processing goroutine started by `NewSession`: run
`Session.handle` and, if it returned an error, cancel the session's
scope with it (`cancel(err)`; a `WithCancelCause` cancel is a no-op on
an already-canceled scope). -/
def Session.runEvents (s : SessState) (msgs : List Message) : SessState :=
  match Session.handle s msgs with
  | (s1, none) => s1
  | (s1, some e) => if s1.cause.isSome then s1 else { s1 with cause := some e }

/-- Which terminal error, if any, a message carries for a session with
the given session and target ids (a pure reading of the three terminal
cases of `Session.handleMsg`; the processing of non-terminal events
never changes those ids, so this is stable along the loop). -/
def Session.terminalCause (sid tid : String) (m : Message) : Option Err :=
  match m.params with
  | .detachedFromTarget s => if sid = s then some .targetDetached else none
  | .targetDestroyed t => if tid = t then some .targetDestroyed else none
  | .targetCrashed t => if tid = t then some (.targetCrashed (.targetCrashed t)) else none
  | _ => none

/-- The entry of `Session.Call`: if the session's scope is done, return
`context.Cause(s.context)` at once — the transport is untouched;
otherwise delegate to `Transport.Send` (the returned `Nat` is the
future index whose `Get` the call then awaits). -/
def Session.call (s : SessState) (t : TransportState) (method params : String)
    (writeErr : Option Err) : Except Err Nat × TransportState :=
  match s.cause with
  | some c => (.error c, t)
  | none =>
      let (t1, fut) :=
        Transport.send t { id := 0, sessionID := s.sessionID, method := method, params := params }
          writeErr
      (.ok fut, t1)

/-- The settlement the tail of `Transport.read` applies to the matched
pending promise: `Reject(response.Error)` when the frame carries an
error, `Resolve(response)` otherwise. -/
def settleWith (pr : PromiseState Response) (r : Response) : PromiseState Response :=
  match r.error with
  | some e => pr.doReject (some e)
  | none => pr.doResolve r

/-- The sequence-id invariant of a transport: `seq` is one past the
number of ids handed out so far, and the ids handed out are exactly
`1, 2, …` in order. -/
def seqInv (t : TransportState) : Prop :=
  t.seq = t.sentIDs.length + 1 ∧ t.sentIDs = List.range' 1 t.sentIDs.length

/-! ### Concrete fixtures used by witnesses and counterexamples -/

/-- A live transport with two in-flight requests (ids 1 and 2, promise
store indices 0 and 1), as produced by two successful sends. -/
def pendingTransportEx : TransportState :=
  { Transport.init with
      seq := 3,
      pending := [(2, 1), (1, 0)],
      promises := [initPromise Response, initPromise Response],
      sentIDs := [1, 2] }

/-- A response frame answering sequence id 1 with a result. -/
def responseOkEx : Response :=
  { id := 1, result := "r1", error := none, message := none }

/-- A trace: two sends that write successfully, then the response to
id 1 arrives, then the connection fails. -/
def traceEx : List TOp :=
  [ .send { id := 0, sessionID := "S", method := "A.a", params := "x" } none,
    .send { id := 0, sessionID := "S", method := "B.b", params := "y" } none,
    .read (.frame responseOkEx),
    .read (.connErr (.readConn "eof")) ]

/-- A session attached as `"S"` to target `"T"`, still live. -/
def sessEx : SessState :=
  { sessionID := "S", targetID := "T", frames := [], cause := none }

/-- A harmless event the session's switch ignores. -/
def noiseMsgEx : Message := { sessionID := "S", params := .other "Noise" "n" }

/-- A `Target.detachedFromTarget` event naming session `"S"`. -/
def detachMsgEx : Message := { sessionID := "", params := .detachedFromTarget "S" }

/-- The concrete terminated transport used to refute claim C9 as
stated: a transport whose scope was canceled by a read error. -/
def closedTransport : TransportState :=
  { Transport.init with cause := some (.readConn "connection lost") }

/-- The spec's fan-out example: subscribers registered for `"A"`, `""`
and `"B"`, all with free capacity. -/
def brokerABEx : BrokerState :=
  { subs := [ { chanId := 0, sessionID := "A", capacity := 10, queue := [] },
              { chanId := 1, sessionID := "", capacity := 10, queue := [] },
              { chanId := 2, sessionID := "B", capacity := 10, queue := [] } ],
    nextChan := 3, closes := [], canceled := false }

/-- An event scoped to session `"A"`. -/
def msgAEx : Message := { sessionID := "A", params := .other "E" "p" }

/-- A broker with an eligible saturated mailbox (capacity 1, one queued
message) next to an eligible mailbox with free capacity. -/
def brokerFullEx : BrokerState :=
  { subs := [ { chanId := 0, sessionID := "", capacity := 1, queue := [msgAEx] },
              { chanId := 1, sessionID := "", capacity := 10, queue := [] } ],
    nextChan := 2, closes := [], canceled := false }

/-- A server-scoped (empty session id) event. -/
def msgRootEx : Message := { sessionID := "", params := .other "F" "q" }

/-! ## Helper lemmas -/

/-- A settled promise absorbs any further settlement call. -/
theorem PromiseState.applyOp_settled {T : Type} (p : PromiseState T)
    (hp : p.settled = true) (op : PromiseOp T) : p.applyOp op = p := by
  cases op <;> simp [PromiseState.applyOp, PromiseState.doResolve, PromiseState.doReject, hp]

/-- Any settlement call on a fresh promise leaves it settled. -/
theorem PromiseState.applyOp_init_settled {T : Type} (op : PromiseOp T) :
    ((initPromise T).applyOp op).settled = true := by
  cases op <;> simp [PromiseState.applyOp, PromiseState.doResolve, PromiseState.doReject,
    initPromise]

theorem foldl_applyOp_settled {T : Type} (ops : List (PromiseOp T)) (p : PromiseState T)
    (hp : p.settled = true) : ops.foldl PromiseState.applyOp p = p := by
  induction ops with
  | nil => rfl
  | cons op rest ih =>
      simp [List.foldl_cons, PromiseState.applyOp_settled p hp op, ih]

theorem lookup_eraseKey_self (m : List (Nat × Nat)) (k : Nat) :
    List.lookup k (eraseKey m k) = none := by
  induction m with
  | nil => rfl
  | cons kv rest ih =>
      obtain ⟨a, b⟩ := kv
      by_cases h : a = k
      · have e1 : eraseKey ((a, b) :: rest) k = eraseKey rest k := by
          simp [eraseKey, List.filter_cons, h]
        rw [e1]; exact ih
      · have e1 : eraseKey ((a, b) :: rest) k = (a, b) :: eraseKey rest k := by
          simp [eraseKey, List.filter_cons, h]
        have h2 : (k == a) = false := beq_eq_false_iff_ne.mpr fun hk => h hk.symm
        rw [e1, List.lookup_cons, h2]
        exact ih

theorem lookup_eraseKey_ne (m : List (Nat × Nat)) (k k' : Nat) (h : k' ≠ k) :
    List.lookup k' (eraseKey m k) = List.lookup k' m := by
  induction m with
  | nil => rfl
  | cons kv rest ih =>
      obtain ⟨a, b⟩ := kv
      by_cases hk : a = k
      · have e1 : eraseKey ((a, b) :: rest) k = eraseKey rest k := by
          simp [eraseKey, List.filter_cons, hk]
        have h2 : (k' == a) = false := beq_eq_false_iff_ne.mpr fun hc => h (hc.trans hk)
        rw [e1, List.lookup_cons, h2]
        exact ih
      · have e1 : eraseKey ((a, b) :: rest) k = (a, b) :: eraseKey rest k := by
          simp [eraseKey, List.filter_cons, hk]
        rw [e1, List.lookup_cons, List.lookup_cons]
        by_cases he : k' = a
        · rw [show (k' == a) = true from beq_iff_eq.mpr he]
        · rw [show (k' == a) = false from beq_eq_false_iff_ne.mpr he]
          exact ih

theorem eraseKey_of_lookup_none (m : List (Nat × Nat)) (k : Nat)
    (h : List.lookup k m = none) : eraseKey m k = m := by
  induction m with
  | nil => rfl
  | cons kv rest ih =>
      obtain ⟨a, b⟩ := kv
      by_cases he : k = a
      · rw [List.lookup_cons, show (k == a) = true from beq_iff_eq.mpr he] at h
        cases h
      · rw [List.lookup_cons, show (k == a) = false from beq_eq_false_iff_ne.mpr he] at h
        have h3 : ¬ a = k := fun hk => he hk.symm
        have e1 : eraseKey ((a, b) :: rest) k = (a, b) :: eraseKey rest k := by
          simp [eraseKey, List.filter_cons, h3]
        rw [e1, ih h]

theorem getD_set_self {α : Type} (l : List α) (i : Nat) (v d : α) (h : i < l.length) :
    (l.set i v).getD i d = v := by
  simp [List.getD, List.getElem?_set, h]

theorem getD_set_ne {α : Type} (l : List α) (i j : Nat) (v d : α) (h : i ≠ j) :
    (l.set i v).getD j d = l.getD j d := by
  simp [List.getD, List.getElem?_set, h]

theorem set_append_length {α : Type} (ps : List α) (x y : α) :
    (ps ++ [x]).set ps.length y = ps ++ [y] := by
  induction ps with
  | nil => rfl
  | cons a ps ih => simp [List.set, ih]

theorem getD_append_length {α : Type} (ps : List α) (x d : α) :
    (ps ++ [x]).getD ps.length d = x := by
  induction ps with
  | nil => rfl
  | cons a ps ih => simp [List.getD] at ih ⊢

/-- A second `Reject` never changes a promise settled by a first one. -/
theorem doReject_doReject {T : Type} (p : PromiseState T) (e e' : Option Err) :
    (p.doReject e).doReject e' = p.doReject e := by
  by_cases h : p.settled <;> simp [PromiseState.doReject, h]

theorem rejectAllAt_getD_not_mem (idxs : List Nat) (ps : List (PromiseState Response))
    (i : Nat) (e : Option Err) (h : i ∉ idxs) :
    (rejectAllAt ps idxs e).getD i (initPromise Response) = ps.getD i (initPromise Response) := by
  induction idxs generalizing ps with
  | nil => rfl
  | cons a rest ih =>
      have ha : a ≠ i := fun hc => h (hc ▸ List.mem_cons_self a rest)
      have hr : i ∉ rest := fun hc => h (List.mem_cons_of_mem a hc)
      simpa [rejectAllAt, List.foldl_cons, getD_set_ne ps a i _ _ ha] using
        (ih (ps.set a ((ps.getD a (initPromise Response)).doReject e)) hr).trans
          (getD_set_ne ps a i _ _ ha)

theorem rejectAllAt_getD_mem (idxs : List Nat) (ps : List (PromiseState Response))
    (i : Nat) (e : Option Err) (h : i ∈ idxs) (hlen : i < ps.length) :
    (rejectAllAt ps idxs e).getD i (initPromise Response) =
      (ps.getD i (initPromise Response)).doReject e := by
  induction idxs generalizing ps with
  | nil => cases h
  | cons a rest ih =>
      have hstep : rejectAllAt ps (a :: rest) e =
          rejectAllAt (ps.set a ((ps.getD a (initPromise Response)).doReject e)) rest e := rfl
      rw [hstep]
      by_cases hmem : i ∈ rest
      · have hlen2 : i < (ps.set a ((ps.getD a (initPromise Response)).doReject e)).length := by
          simpa using hlen
        rw [ih _ hmem hlen2]
        by_cases hia : a = i
        · subst hia
          rw [getD_set_self ps a _ _ hlen, doReject_doReject]
        · rw [getD_set_ne ps a i _ _ hia]
      · have hia : a = i := by
          rcases List.mem_cons.mp h with h1 | h1
          · exact h1.symm
          · exact absurd h1 hmem
        subst hia
        rw [rejectAllAt_getD_not_mem rest _ a e hmem, getD_set_self ps a _ _ hlen]

/-! ## Claim theorems -/

/-- Claim C3: for every promise and every sequence of Resolve/Reject/
Cancel calls, only the first settlement takes effect — the final state
(hence the value/error pair `Get` observes) is the one produced by the
first call alone, every later call is a no-op, and the release hook has
run exactly once, at that first settlement. -/
theorem promise_first_settlement_wins (T : Type) (op : PromiseOp T) (ops : List (PromiseOp T)) :
    runPromiseOps T (op :: ops) = (initPromise T).applyOp op
    ∧ promiseGet (runPromiseOps T (op :: ops)) = promiseGet ((initPromise T).applyOp op)
    ∧ (runPromiseOps T (op :: ops)).cleanRuns = 1 := by
  have h1 : runPromiseOps T (op :: ops) = (initPromise T).applyOp op := by
    have hs := PromiseState.applyOp_init_settled op
    simpa [runPromiseOps, List.foldl_cons] using
      foldl_applyOp_settled ops ((initPromise T).applyOp op) hs
  refine ⟨h1, by rw [h1], ?_⟩
  rw [h1]
  cases op <;>
    simp [PromiseState.applyOp, PromiseState.doResolve, PromiseState.doReject, initPromise]

/-- Claim C10: the broker's unsubscribe branch deletes and closes
unconditionally, with no registry-membership check, so processing a
second unsubscribe request for the same mailbox channel performs a
`close` on a channel that its own close log already contains —
double-unsubscribe is not a safe no-op. -/
theorem broker_double_unsubscribe (b : BrokerState) (ch : Nat) :
    (b.unsubStep ch).closes = b.closes ++ [ch]
    ∧ ch ∈ (b.unsubStep ch).closes
    ∧ ((b.unsubStep ch).unsubStep ch).closes = (b.closes ++ [ch]) ++ [ch]
    ∧ ((b.unsubStep ch).unsubStep ch).closes.count ch = b.closes.count ch + 2 := by
  refine ⟨rfl, by simp [BrokerState.unsubStep], rfl, ?_⟩
  simp [BrokerState.unsubStep, List.count_append]

/-- Claim C7: a `Session.Call` made while the session's cancellation
scope is already canceled returns the recorded cause immediately and
leaves the transport completely untouched — no sequence id is
allocated, no pending entry is created, no frame is written. -/
theorem session_call_after_cancel (s : SessState) (t : TransportState)
    (method params : String) (we : Option Err) (c : Err) (h : s.cause = some c) :
    Session.call s t method params we = (.error c, t) := by
  simp [Session.call, h]

/-- Claim C7 witness: a session canceled with `ErrTargetDetached` turns
any call into an immediate error on an untouched transport. -/
theorem session_call_after_cancel_witness :
    Session.call { sessionID := "S", targetID := "T", frames := [],
                   cause := some .targetDetached }
        Transport.init "Page.navigate" "x" none
      = (.error Err.targetDetached, Transport.init) :=
  session_call_after_cancel _ _ _ _ _ _ rfl

/-- Claim C9 counterexample: on a terminated transport, `Subscribe`
does not return a usable no-op subscription — it returns `nil, nil`
(modelled by `none`) and registers nothing: the claimed safely-usable
mailbox/unsubscribe pair does not exist (in Go, calling the returned
nil unsubscribe function panics and receiving from the nil mailbox
blocks forever). -/
theorem transport_subscribe_closed_counterexample :
    (Transport.subscribe closedTransport "A").1 = none
    ∧ (Transport.subscribe closedTransport "A").2 = closedTransport := by
  constructor <;> rfl

/-- Claim C9 (amended): calling `Transport.Subscribe` after the
transport has terminated returns immediately with `nil, nil` — no
mailbox, no unsubscribe callback — and registers nothing with the
broker (the transport, its broker registry included, is unchanged);
the call itself does not block. -/
theorem transport_subscribe_closed_noop (t : TransportState) (sid : String)
    (h : t.isClosed = true) :
    Transport.subscribe t sid = (none, t) := by
  simp [Transport.subscribe, h]

/-- Claim C9 witness: the amended behaviour at the concrete terminated
transport. -/
theorem transport_subscribe_closed_noop_witness :
    Transport.subscribe closedTransport "B" = (none, closedTransport) :=
  transport_subscribe_closed_noop closedTransport "B" rfl

/-- Claim C5: when every mailbox has free capacity, publishing a
message with session id `S` delivers it to exactly those subscribers
whose registered identity equals `S` or is empty — in particular, when
`S` is empty, to every subscriber — and a subscriber with a different
non-empty identity never receives it (its queue is unchanged). -/
theorem broker_delivery_rule (b : BrokerState) (msg : Message)
    (hroom : ∀ mb ∈ b.subs, mb.queue.length < mb.capacity) :
    (b.publishStep msg).subs = b.subs.map (fun mb =>
      if msg.sessionID = "" ∨ mb.sessionID = "" ∨ mb.sessionID = msg.sessionID
      then { mb with queue := mb.queue ++ [msg] } else mb) := by
  show b.subs.map _ = b.subs.map _
  apply List.map_congr_left
  intro mb hmb
  by_cases hd : msg.sessionID = "" ∨ mb.sessionID = "" ∨ mb.sessionID = msg.sessionID
  · have he : eligible msg mb.sessionID = true := by
      simp only [eligible, Bool.or_eq_true, beq_iff_eq]
      rcases hd with h | h | h
      · exact Or.inl (Or.inl h)
      · exact Or.inl (Or.inr h)
      · exact Or.inr h.symm
    simp [he, hd, Mailbox.offer, hroom mb hmb]
  · have he : eligible msg mb.sessionID = false := by
      simp only [eligible, Bool.or_eq_false_iff, beq_eq_false_iff_ne, ne_eq]
      push_neg at hd
      exact ⟨⟨hd.1, hd.2.1⟩, fun h => hd.2.2 h.symm⟩
    simp [he, hd]

/-- Claim C5 witness: publishing an `"A"`-scoped message to subscribers
`{"A", "", "B"}` delivers to `"A"` and `""` but not `"B"`. -/
theorem broker_delivery_rule_witness :
    (brokerABEx.publishStep msgAEx).subs =
      [ { chanId := 0, sessionID := "A", capacity := 10, queue := [msgAEx] },
        { chanId := 1, sessionID := "", capacity := 10, queue := [msgAEx] },
        { chanId := 2, sessionID := "B", capacity := 10, queue := [] } ] := by
  rw [broker_delivery_rule brokerABEx msgAEx (by decide)]
  rfl

/-- Claim C6: publishing offers the message to every mailbox
independently and non-blockingly (`BrokerState.publishStep` is the
loop's `select`/`default` body as a total function): an eligible but
full mailbox is left exactly as it was — the delivery is dropped — and
every other eligible mailbox with free capacity still receives the
message. -/
theorem broker_full_mailbox_drop (b : BrokerState) (msg : Message) :
    ((b.publishStep msg).subs = b.subs.map (fun mb =>
        if (msg.sessionID = "" ∨ mb.sessionID = "" ∨ mb.sessionID = msg.sessionID)
            ∧ mb.queue.length < mb.capacity
        then { mb with queue := mb.queue ++ [msg] } else mb))
    ∧ (∀ (i : Nat) (mb : Mailbox), b.subs[i]? = some mb → ¬ mb.queue.length < mb.capacity →
        (b.publishStep msg).subs[i]? = some mb)
    ∧ (∀ (i : Nat) (mb : Mailbox), b.subs[i]? = some mb →
        (msg.sessionID = "" ∨ mb.sessionID = "" ∨ mb.sessionID = msg.sessionID) →
        mb.queue.length < mb.capacity →
        (b.publishStep msg).subs[i]? = some { mb with queue := mb.queue ++ [msg] }) := by
  have hmb : ∀ mb : Mailbox,
      (if eligible msg mb.sessionID then mb.offer msg else mb) =
        (if (msg.sessionID = "" ∨ mb.sessionID = "" ∨ mb.sessionID = msg.sessionID)
            ∧ mb.queue.length < mb.capacity
         then { mb with queue := mb.queue ++ [msg] } else mb) := by
    intro mb
    by_cases hd : msg.sessionID = "" ∨ mb.sessionID = "" ∨ mb.sessionID = msg.sessionID
    · have he : eligible msg mb.sessionID = true := by
        simp only [eligible, Bool.or_eq_true, beq_iff_eq]
        rcases hd with h | h | h
        · exact Or.inl (Or.inl h)
        · exact Or.inl (Or.inr h)
        · exact Or.inr h.symm
      by_cases hr : mb.queue.length < mb.capacity
      · simp [he, hd, hr, Mailbox.offer]
      · simp [he, hd, hr, Mailbox.offer]
    · have he : eligible msg mb.sessionID = false := by
        simp only [eligible, Bool.or_eq_false_iff, beq_eq_false_iff_ne, ne_eq]
        push_neg at hd
        exact ⟨⟨hd.1, hd.2.1⟩, fun h => hd.2.2 h.symm⟩
      simp [he, hd]
  have hmap : (b.publishStep msg).subs = b.subs.map (fun mb =>
      if (msg.sessionID = "" ∨ mb.sessionID = "" ∨ mb.sessionID = msg.sessionID)
          ∧ mb.queue.length < mb.capacity
      then { mb with queue := mb.queue ++ [msg] } else mb) := by
    show b.subs.map _ = b.subs.map _
    exact List.map_congr_left fun mb _ => hmb mb
  refine ⟨hmap, ?_, ?_⟩
  · intro i mb hi hfull
    rw [hmap]
    simp [List.getElem?_map, hi, hfull]
  · intro i mb hi hel hr
    rw [hmap]
    simp [List.getElem?_map, hi, hel, hr]

/-- Claim C6 witness: the saturated mailbox keeps its old queue while
its neighbour with free capacity receives the published message. -/
theorem broker_full_mailbox_drop_witness :
    (brokerFullEx.publishStep msgRootEx).subs[0]? =
        some { chanId := 0, sessionID := "", capacity := 1, queue := [msgAEx] }
    ∧ (brokerFullEx.publishStep msgRootEx).subs[1]? =
        some { chanId := 1, sessionID := "", capacity := 10, queue := [msgRootEx] } := by
  have h := broker_full_mailbox_drop brokerFullEx msgRootEx
  exact ⟨h.2.1 0 _ rfl (by decide), h.2.2 1 _ rfl (Or.inl rfl) (by decide)⟩

/-- Claim C8: when writing the request frame fails, `Transport.Send`
removes the just-registered pending entry for that sequence id — the
pending map is exactly what it was before the call, with no entry for
the id left behind — and the returned future is rejected with the write
error. -/
theorem transport_send_write_failure (t : TransportState) (req : Request) (e : Err)
    (hlive : t.cause = none) (hfresh : List.lookup t.seq t.pending = none) :
    (Transport.send t req (some e)).2 = t.promises.length
    ∧ (Transport.send t req (some e)).1.pending = t.pending
    ∧ List.lookup t.seq (Transport.send t req (some e)).1.pending = none
    ∧ (Transport.send t req (some e)).1.promises =
        t.promises ++ [{ settled := true, value := none, err := some e, cleanRuns := 1 }] := by
  have e0 : eraseKey ((t.seq, t.promises.length) :: t.pending) t.seq = t.pending := by
    have e1 : eraseKey ((t.seq, t.promises.length) :: t.pending) t.seq =
        eraseKey t.pending t.seq := by
      simp [eraseKey, List.filter_cons]
    rw [e1, eraseKey_of_lookup_none t.pending t.seq hfresh]
  have hsend : Transport.send t req (some e) =
      ({ t with
           seq := t.seq + 1,
           pending := eraseKey ((t.seq, t.promises.length) :: t.pending) t.seq,
           sentIDs := t.sentIDs ++ [t.seq],
           written := t.written ++ [{ req with id := t.seq }],
           promises := (t.promises ++ [initPromise Response]).set t.promises.length
             (((t.promises ++ [initPromise Response]).getD t.promises.length
                 (initPromise Response)).doReject (some e)) },
       t.promises.length) := by
    simp [Transport.send, TransportState.isClosed, TransportState.rejectAt, hlive]
  rw [hsend, e0]
  refine ⟨rfl, rfl, hfresh, ?_⟩
  rw [getD_append_length, set_append_length]
  simp [PromiseState.doReject, initPromise]

/-- Claim C8 witness: a failed write on a transport with two in-flight
requests leaves the pending map as it was and appends one promise,
rejected with the write error. -/
theorem transport_send_write_failure_witness :
    (Transport.send pendingTransportEx
        { id := 0, sessionID := "S", method := "C.c", params := "z" }
        (some (.write "broken pipe"))).1.pending = pendingTransportEx.pending
    ∧ (Transport.send pendingTransportEx
        { id := 0, sessionID := "S", method := "C.c", params := "z" }
        (some (.write "broken pipe"))).1.promises =
        pendingTransportEx.promises ++
          [{ settled := true, value := none, err := some (.write "broken pipe"),
             cleanRuns := 1 }] := by
  have h := transport_send_write_failure pendingTransportEx
    { id := 0, sessionID := "S", method := "C.c", params := "z" } (.write "broken pipe")
    rfl (by decide)
  exact ⟨h.2.1, h.2.2.2⟩

theorem correlate_seq (t : TransportState) (r : Response) :
    (Transport.correlate t r).1.seq = t.seq ∧ (Transport.correlate t r).1.sentIDs = t.sentIDs := by
  cases hl : List.lookup r.id t.pending with
  | none => simp [Transport.correlate, hl]
  | some p =>
      cases he : r.error with
      | some e2 => simp [Transport.correlate, hl, he, TransportState.rejectAt]
      | none => simp [Transport.correlate, hl, he, TransportState.resolveAt]

theorem readStep_seq (t : TransportState) (i : ReadInput) :
    (Transport.readStep t i).1.seq = t.seq
    ∧ (Transport.readStep t i).1.sentIDs = t.sentIDs := by
  cases i with
  | connErr e => exact ⟨rfl, rfl⟩
  | frame r =>
      by_cases h0 : r.id = 0
      · cases hm : r.message with
        | some m => simp [Transport.readStep, h0, hm]
        | none =>
            simpa [Transport.readStep, h0, hm] using correlate_seq t r
      · simpa [Transport.readStep, h0] using correlate_seq t r

theorem onReadError_seq (t : TransportState) (e : Err) :
    (Transport.onReadError t e).seq = t.seq
    ∧ (Transport.onReadError t e).sentIDs = t.sentIDs := by
  by_cases hc : t.cause.isSome <;>
    simp [Transport.onReadError, Transport.gracefullyClose, TransportState.cancelWith, hc]

set_option maxRecDepth 4000 in
theorem send_seq (t : TransportState) (req : Request) (we : Option Err) :
    ((Transport.send t req we).1.seq = if t.cause.isSome then t.seq else t.seq + 1)
    ∧ ((Transport.send t req we).1.sentIDs =
        if t.cause.isSome then t.sentIDs else t.sentIDs ++ [t.seq]) := by
  by_cases hc : t.cause.isSome
  · refine ⟨?_, ?_⟩ <;>
      simp [Transport.send, TransportState.isClosed, TransportState.rejectAt, hc]
  · cases we with
    | none =>
        refine ⟨?_, ?_⟩ <;> simp [Transport.send, TransportState.isClosed, hc]
    | some e =>
        refine ⟨?_, ?_⟩ <;>
          simp [Transport.send, TransportState.isClosed, TransportState.rejectAt, hc]

theorem step_preserves_seqInv (t : TransportState) (op : TOp) (h : seqInv t) :
    seqInv (Transport.step t op) := by
  obtain ⟨h1, h2⟩ := h
  cases op with
  | send req we =>
      have hstep : Transport.step t (.send req we) = (Transport.send t req we).1 := rfl
      obtain ⟨hs, hids⟩ := send_seq t req we
      rw [seqInv, hstep, hs, hids]
      by_cases hc : t.cause.isSome
      · rw [if_pos hc, if_pos hc]
        exact ⟨h1, h2⟩
      · rw [if_neg hc, if_neg hc]
        refine ⟨by simp; omega, ?_⟩
        simp only [List.length_append, List.length_cons, List.length_nil]
        rw [List.range'_1_concat, ← h2, h1, Nat.add_comm 1 t.sentIDs.length]
  | read i =>
      by_cases hd : t.readerDone
      · have hstep : Transport.step t (.read i) = t := by
          simp only [Transport.step, hd, if_true]
        rw [seqInv, hstep]
        exact ⟨h1, h2⟩
      · obtain ⟨hs, hids⟩ := readStep_seq t i
        rcases hr : Transport.readStep t i with ⟨t1, e?⟩
        rw [hr] at hs hids
        simp only [Prod.fst] at hs hids
        cases e? with
        | none =>
            refine ⟨?_, ?_⟩ <;> simp only [Transport.step, hd, hr, Bool.false_eq_true, if_false]
            · rw [hs, hids]; exact h1
            · rw [hids]; exact h2
        | some e =>
            obtain ⟨hs2, hids2⟩ := onReadError_seq t1 e
            refine ⟨?_, ?_⟩ <;> simp only [Transport.step, hd, hr, Bool.false_eq_true, if_false]
            · rw [hs2, hids2, hs, hids]; exact h1
            · rw [hids2, hids]; exact h2

theorem run_seqInv (ops : List TOp) (t : TransportState) (h : seqInv t) :
    seqInv (Transport.run t ops) := by
  induction ops generalizing t with
  | nil => exact h
  | cons op rest ih => exact ih _ (step_preserves_seqInv t op h)

/-- Claim C1: over any interleaved trace of sends and reader
iterations, `Transport.Send` hands out sequence ids that are exactly
`1, 2, 3, …` — unique, strictly increasing, starting at 1 — and one
reader iteration on a response frame whose id matches a pending request
settles exactly that request's promise (reject on an error payload,
resolve on a result) and removes exactly that entry from the pending
map, leaving every other pending entry and every other promise in the
store untouched (`List.set` changes index `p` only), for any pending
map contents, i.e. regardless of completion order. -/
theorem transport_sequence_ids_and_correlation :
    (∀ ops : List TOp,
        (Transport.run Transport.init ops).sentIDs =
            List.range' 1 (Transport.run Transport.init ops).sentIDs.length
        ∧ List.Pairwise (· < ·) (Transport.run Transport.init ops).sentIDs
        ∧ (∀ n ∈ (Transport.run Transport.init ops).sentIDs, 1 ≤ n)
        ∧ ((Transport.run Transport.init ops).sentIDs ≠ [] →
            (Transport.run Transport.init ops).sentIDs.head? = some 1))
    ∧ (∀ (t : TransportState) (r : Response) (p : Nat),
        List.lookup r.id t.pending = some p →
        (r.id ≠ 0 ∨ r.message = none) →
        (Transport.readStep t (.frame r)).2 = none
        ∧ List.lookup r.id (Transport.readStep t (.frame r)).1.pending = none
        ∧ (∀ k, k ≠ r.id →
            List.lookup k (Transport.readStep t (.frame r)).1.pending =
              List.lookup k t.pending)
        ∧ (Transport.readStep t (.frame r)).1.promises =
            t.promises.set p (settleWith (t.promises.getD p (initPromise Response)) r)
        ∧ ((t.promises.getD p (initPromise Response)).settled = false →
            p < t.promises.length →
            promiseGet ((Transport.readStep t (.frame r)).1.promises.getD p
                (initPromise Response)) =
              (match r.error with
               | some e => ((t.promises.getD p (initPromise Response)).value, some e)
               | none => (some r, (t.promises.getD p (initPromise Response)).err)))) := by
  constructor
  · intro ops
    obtain ⟨h1, h2⟩ := run_seqInv ops Transport.init ⟨rfl, rfl⟩
    refine ⟨h2, ?_, ?_, ?_⟩
    · rw [h2]
      exact List.pairwise_lt_range' 1 _
    · intro n hn
      rw [h2] at hn
      exact (List.mem_range'_1.mp hn).1
    · intro hne
      rcases hl2 : (Transport.run Transport.init ops).sentIDs with _ | ⟨a, l⟩
      · exact absurd hl2 hne
      · rw [hl2] at h2
        rw [List.length_cons] at h2
        have hh := congrArg List.head? h2
        simp [List.range'_succ] at hh
        simp [hl2, hh]
  · intro t r p hl hdisj
    have hred : Transport.readStep t (.frame r) = Transport.correlate t r := by
      by_cases h0 : r.id = 0
      · rcases hdisj with hne | hm
        · exact absurd h0 hne
        · simp [Transport.readStep, h0, hm]
      · simp [Transport.readStep, h0]
    rw [hred]
    cases he : r.error with
    | some e =>
        have hc : Transport.correlate t r =
            (TransportState.rejectAt { t with pending := eraseKey t.pending r.id } p (some e),
             none) := by
          simp [Transport.correlate, hl, he]
        rw [hc]
        refine ⟨rfl, ?_, ?_, ?_, ?_⟩
        · simp [TransportState.rejectAt, lookup_eraseKey_self]
        · intro k hk
          simp [TransportState.rejectAt, lookup_eraseKey_ne t.pending r.id k hk]
        · simp [TransportState.rejectAt, settleWith, he]
        · intro hset hp
          simp only [TransportState.rejectAt]
          rw [getD_set_self t.promises p _ _ hp]
          simp only [List.getD_eq_getElem?_getD] at hset
          simp [PromiseState.doReject, hset, promiseGet, he]
    | none =>
        have hc : Transport.correlate t r =
            (TransportState.resolveAt { t with pending := eraseKey t.pending r.id } p r,
             none) := by
          simp [Transport.correlate, hl, he]
        rw [hc]
        refine ⟨rfl, ?_, ?_, ?_, ?_⟩
        · simp [TransportState.resolveAt, lookup_eraseKey_self]
        · intro k hk
          simp [TransportState.resolveAt, lookup_eraseKey_ne t.pending r.id k hk]
        · simp [TransportState.resolveAt, settleWith, he]
        · intro hset hp
          simp only [TransportState.resolveAt]
          rw [getD_set_self t.promises p _ _ hp]
          simp only [List.getD_eq_getElem?_getD] at hset
          simp [PromiseState.doResolve, hset, promiseGet, he]

/-- Claim C1 witness: on the concrete trace the ids handed out start at
1, and the concrete response to id 1 settles and clears exactly that
pending entry. -/
theorem transport_sequence_ids_and_correlation_witness :
    (Transport.run Transport.init traceEx).sentIDs.head? = some 1
    ∧ (Transport.readStep pendingTransportEx (.frame responseOkEx)).2 = none
    ∧ List.lookup 1 (Transport.readStep pendingTransportEx (.frame responseOkEx)).1.pending
        = none := by
  have h := transport_sequence_ids_and_correlation
  have hcor := h.2 pendingTransportEx responseOkEx 0 (by decide) (Or.inl (by decide))
  exact ⟨(h.1 traceEx).2.2.2 (by decide), hcor.1, hcor.2.1⟩

/-- Claim C2: when `Transport.read` reports an error on a live
transport, the reader goroutine records that error as the scope's
cause, cancels the broker, empties the pending map and rejects every
promise that was pending with that cause; and a response frame whose id
matches no pending request makes `read` return the fatal
`"unexpected response"` error. -/
theorem transport_read_error_teardown :
    (∀ (t : TransportState) (e : Err), t.cause = none →
        (Transport.onReadError t e).cause = some e
        ∧ (Transport.onReadError t e).broker.canceled = true
        ∧ (Transport.onReadError t e).pending = []
        ∧ (Transport.onReadError t e).readerDone = true
        ∧ (∀ k p, (k, p) ∈ t.pending → p < t.promises.length →
            (Transport.onReadError t e).promises.getD p (initPromise Response) =
              (t.promises.getD p (initPromise Response)).doReject (some e)))
    ∧ (∀ (t : TransportState) (r : Response),
        (r.id ≠ 0 ∨ r.message = none) →
        List.lookup r.id t.pending = none →
        (Transport.readStep t (.frame r)).2 = some (.unexpectedResponse r.id)) := by
  constructor
  · intro t e hlive
    have hcw : t.cancelWith e = { t with cause := some e } := by
      simp [TransportState.cancelWith, hlive]
    simp only [Transport.onReadError, hcw, Transport.gracefullyClose, BrokerState.cancelStep]
    refine ⟨trivial, trivial, trivial, trivial, ?_⟩
    intro k p hmem hp
    have hpm : p ∈ t.pending.map Prod.snd := List.mem_map.mpr ⟨(k, p), hmem, rfl⟩
    exact rejectAllAt_getD_mem _ _ _ _ hpm hp
  · intro t r hdisj hl
    have hred : Transport.readStep t (.frame r) = Transport.correlate t r := by
      by_cases h0 : r.id = 0
      · rcases hdisj with hne | hm
        · exact absurd h0 hne
        · simp [Transport.readStep, h0, hm]
      · simp [Transport.readStep, h0]
    rw [hred]
    simp [Transport.correlate, hl]

/-- Claim C2 witness: a connection error tears down the concrete
transport with two pending requests, rejecting the promise of request 1
with the read error, and the concrete unmatched response id on a
transport with nothing pending is the fatal read error. -/
theorem transport_read_error_teardown_witness :
    (Transport.onReadError pendingTransportEx (.readConn "eof")).cause =
        some (.readConn "eof")
    ∧ (Transport.onReadError pendingTransportEx (.readConn "eof")).pending = []
    ∧ (Transport.onReadError pendingTransportEx (.readConn "eof")).promises.getD 0
        (initPromise Response) = (initPromise Response).doReject (some (.readConn "eof"))
    ∧ (Transport.readStep Transport.init (.frame responseOkEx)).2 =
        some (.unexpectedResponse 1) := by
  have h := transport_read_error_teardown
  have h1 := h.1 pendingTransportEx (.readConn "eof") rfl
  refine ⟨h1.1, h1.2.2.1, ?_, ?_⟩
  · exact h1.2.2.2.2 1 0 (by decide) (by decide)
  · exact h.2 Transport.init responseOkEx (Or.inl (by decide)) rfl

theorem handleMsg_terminalCause (s : SessState) (m : Message) :
    (∀ e, Session.handleMsg s m = .terminate e ↔
        Session.terminalCause s.sessionID s.targetID m = some e)
    ∧ (∀ s1, Session.handleMsg s m = .cont s1 →
        s1.sessionID = s.sessionID ∧ s1.targetID = s.targetID ∧ s1.cause = s.cause)
    ∧ (Session.terminalCause s.sessionID s.targetID m = none →
        ∃ s1, Session.handleMsg s m = .cont s1) := by
  rcases m with ⟨msid, params⟩
  cases params with
  | executionContextCreated f u =>
      refine ⟨fun e => ?_, fun s1 h => ?_, fun _ => ⟨_, rfl⟩⟩
      · simp [Session.handleMsg, Session.terminalCause]
      · cases h
        exact ⟨rfl, rfl, rfl⟩
  | frameDetached f =>
      refine ⟨fun e => ?_, fun s1 h => ?_, fun _ => ⟨_, rfl⟩⟩
      · simp [Session.handleMsg, Session.terminalCause]
      · cases h
        exact ⟨rfl, rfl, rfl⟩
  | detachedFromTarget sid =>
      by_cases hc : s.sessionID = sid
      · refine ⟨fun e => ?_, fun s1 h => ?_, fun hn => ?_⟩
        · simp [Session.handleMsg, Session.terminalCause, hc]
        · simp [Session.handleMsg, hc] at h
        · simp [Session.terminalCause, hc] at hn
      · refine ⟨fun e => ?_, fun s1 h => ?_, fun hn => ?_⟩
        · simp [Session.handleMsg, Session.terminalCause, hc]
        · simp only [Session.handleMsg, if_neg hc] at h
          cases h
          exact ⟨rfl, rfl, rfl⟩
        · exact ⟨s, by simp [Session.handleMsg, hc]⟩
  | targetDestroyed tid =>
      by_cases hc : s.targetID = tid
      · refine ⟨fun e => ?_, fun s1 h => ?_, fun hn => ?_⟩
        · simp [Session.handleMsg, Session.terminalCause, hc]
        · simp [Session.handleMsg, hc] at h
        · simp [Session.terminalCause, hc] at hn
      · refine ⟨fun e => ?_, fun s1 h => ?_, fun hn => ?_⟩
        · simp [Session.handleMsg, Session.terminalCause, hc]
        · simp only [Session.handleMsg, if_neg hc] at h
          cases h
          exact ⟨rfl, rfl, rfl⟩
        · exact ⟨s, by simp [Session.handleMsg, hc]⟩
  | targetCrashed tid =>
      by_cases hc : s.targetID = tid
      · refine ⟨fun e => ?_, fun s1 h => ?_, fun hn => ?_⟩
        · simp [Session.handleMsg, Session.terminalCause, hc]
        · simp [Session.handleMsg, hc] at h
        · simp [Session.terminalCause, hc] at hn
      · refine ⟨fun e => ?_, fun s1 h => ?_, fun hn => ?_⟩
        · simp [Session.handleMsg, Session.terminalCause, hc]
        · simp only [Session.handleMsg, if_neg hc] at h
          cases h
          exact ⟨rfl, rfl, rfl⟩
        · exact ⟨s, by simp [Session.handleMsg, hc]⟩
  | other mth pl =>
      refine ⟨fun e => ?_, fun s1 h => ?_, fun _ => ⟨_, rfl⟩⟩
      · simp [Session.handleMsg, Session.terminalCause]
      · cases h
        exact ⟨rfl, rfl, rfl⟩

theorem handle_stops_at_terminal (pre : List Message) (s : SessState) (m : Message)
    (rest : List Message) (e : Err)
    (hpre : ∀ y ∈ pre, Session.terminalCause s.sessionID s.targetID y = none)
    (hm : Session.terminalCause s.sessionID s.targetID m = some e) :
    Session.handle s (pre ++ m :: rest) = Session.handle s (pre ++ [m])
    ∧ (Session.handle s (pre ++ m :: rest)).2 = some e
    ∧ (Session.handle s (pre ++ m :: rest)).1.cause = s.cause := by
  induction pre generalizing s with
  | nil =>
      have ht : Session.handleMsg s m = .terminate e :=
        ((handleMsg_terminalCause s m).1 e).mpr hm
      simp [Session.handle, ht]
  | cons x pre ih =>
      have hx : Session.terminalCause s.sessionID s.targetID x = none :=
        hpre x (List.mem_cons_self x pre)
      obtain ⟨s1, hcont⟩ := (handleMsg_terminalCause s x).2.2 hx
      obtain ⟨hsid, htid, hcause⟩ := (handleMsg_terminalCause s x).2.1 s1 hcont
      have hpre1 : ∀ y ∈ pre, Session.terminalCause s1.sessionID s1.targetID y = none := by
        intro y hy
        rw [hsid, htid]
        exact hpre y (List.mem_cons_of_mem x hy)
      have hm1 : Session.terminalCause s1.sessionID s1.targetID m = some e := by
        rw [hsid, htid]
        exact hm
      have ihs := ih s1 hpre1 hm1
      simp only [List.cons_append, Session.handle, hcont, List.append_eq]
      exact ⟨ihs.1, ihs.2.1, by rw [ihs.2.2, hcause]⟩

/-- Claim C4: the session's event task terminates the session exactly
on the three terminal events naming this session or target —
`Target.detachedFromTarget` with this session's id,
`Target.targetDestroyed` with this target's id, `Target.targetCrashed`
with this target's id — with the cause identifying which condition
fired (`ErrTargetDetached`, `ErrTargetDestroyed`,
`TargetCrashedError(params)`); the same events carrying a different id
do not terminate it; once a terminal event is hit, the remaining
mailbox contents are never processed, the session's scope is canceled
with that cause, and every `Session.Call` issued afterwards fails with
that recorded cause. -/
theorem session_terminal_events :
    (∀ (s : SessState) (msid : String),
        Session.handleMsg s { sessionID := msid, params := .detachedFromTarget s.sessionID }
            = .terminate .targetDetached
        ∧ Session.handleMsg s { sessionID := msid, params := .targetDestroyed s.targetID }
            = .terminate .targetDestroyed
        ∧ Session.handleMsg s { sessionID := msid, params := .targetCrashed s.targetID }
            = .terminate (.targetCrashed (.targetCrashed s.targetID)))
    ∧ (∀ (s : SessState) (msid x : String),
        (x ≠ s.sessionID →
          Session.handleMsg s { sessionID := msid, params := .detachedFromTarget x } = .cont s)
        ∧ (x ≠ s.targetID →
          Session.handleMsg s { sessionID := msid, params := .targetDestroyed x } = .cont s)
        ∧ (x ≠ s.targetID →
          Session.handleMsg s { sessionID := msid, params := .targetCrashed x } = .cont s))
    ∧ (∀ (s : SessState) (pre : List Message) (m : Message) (rest : List Message) (e : Err),
        (∀ y ∈ pre, Session.terminalCause s.sessionID s.targetID y = none) →
        Session.terminalCause s.sessionID s.targetID m = some e →
        s.cause = none →
        Session.runEvents s (pre ++ m :: rest) = Session.runEvents s (pre ++ [m])
        ∧ (Session.runEvents s (pre ++ m :: rest)).cause = some e
        ∧ (∀ (t : TransportState) (mth prm : String) (we : Option Err),
            Session.call (Session.runEvents s (pre ++ m :: rest)) t mth prm we =
              (.error e, t))) := by
  refine ⟨?_, ?_, ?_⟩
  · intro s msid
    refine ⟨?_, ?_, ?_⟩ <;> simp [Session.handleMsg]
  · intro s msid x
    refine ⟨fun hne => ?_, fun hne => ?_, fun hne => ?_⟩ <;>
      simp [Session.handleMsg, Ne.symm hne]
  · intro s pre m rest e hpre hm hc
    obtain ⟨heq, he2, hcause⟩ := handle_stops_at_terminal pre s m rest e hpre hm
    have hr1 : Session.runEvents s (pre ++ m :: rest) = Session.runEvents s (pre ++ [m]) := by
      simp [Session.runEvents, heq]
    have hrc : (Session.runEvents s (pre ++ m :: rest)).cause = some e := by
      rcases hh : Session.handle s (pre ++ m :: rest) with ⟨s1, eo⟩
      rw [hh] at he2 hcause
      simp only [Prod.snd, Prod.fst] at he2 hcause
      subst he2
      simp [Session.runEvents, hh, hcause, hc]
    refine ⟨hr1, hrc, ?_⟩
    intro t mth prm we
    simp [Session.call, hrc]

/-- Claim C4 witness: a detach event naming session `"S"`, surrounded
by ignored events, terminates the concrete session with
`ErrTargetDetached`, processing stops there, and a later call fails
with that cause on an untouched transport. -/
theorem session_terminal_events_witness :
    Session.runEvents sessEx ([noiseMsgEx] ++ detachMsgEx :: [noiseMsgEx]) =
        Session.runEvents sessEx ([noiseMsgEx] ++ [detachMsgEx])
    ∧ (Session.runEvents sessEx ([noiseMsgEx] ++ detachMsgEx :: [noiseMsgEx])).cause =
        some .targetDetached
    ∧ Session.call (Session.runEvents sessEx ([noiseMsgEx] ++ detachMsgEx :: [noiseMsgEx]))
        Transport.init "Page.navigate" "u" none = (.error .targetDetached, Transport.init) := by
  have h := session_terminal_events
  have h3 := h.2.2 sessEx [noiseMsgEx] detachMsgEx [noiseMsgEx] .targetDetached
    (by decide) (by decide) rfl
  exact ⟨h3.1, h3.2.1, h3.2.2 Transport.init "Page.navigate" "u" none⟩

end Control
